import Mathlib

/-!
Shallow embedding of the swing-trader backtesting core (Go sources under
pkg/indicators, pkg/strategy, pkg/backtesting) and verification of the
stated properties.

Modelling conventions:
* Go `float64` arithmetic is modelled by `ℚ` (exact rational arithmetic);
  `math.Sqrt` is an abstract parameter `sq : ℚ → ℚ` threaded through the
  indicator and strategy functions, since the verified properties treat the
  standard deviation symbolically.
* Go `time.Time` dates are modelled by `ℕ` (only ordering/identity of dates
  is used by the verified code paths).
* Go slices are Lean lists; Go `int64` is `ℤ`; Go `int64(x)` conversion of a
  float truncates toward zero, modelled by `goTrunc`.
* Struct fields not read by any verified code path (Open/High/Low/Volume of
  StockData, string trade IDs, chart/reporting fields) are either dropped or
  simplified (trade IDs become the numeric counter).
-/

unseal Rat.add Rat.mul Rat.inv Rat.sub

namespace SwingTrader

/-- A single bar of stock data (internal/types/types.go `StockData`).
Only the fields read by the verified code paths (Date, Close) are modelled. -/
structure StockData where
  date : ℕ
  close : ℚ
  deriving DecidableEq, Inhabited

/-- Bollinger band triple (internal/types/types.go `BollingerBands`). -/
structure BollingerBands where
  upper : ℚ
  middle : ℚ
  lower : ℚ
  deriving DecidableEq, Inhabited

/-- Signal kind: Go uses the strings "BUY", "SELL", "HOLD". -/
inductive SignalType
  | BUY
  | SELL
  | HOLD
  deriving DecidableEq, Inhabited

/-- A trading signal (internal/types/types.go `Signal`). -/
structure Signal where
  date : ℕ
  type : SignalType
  price : ℚ
  reason : String
  deriving DecidableEq, Inhabited

/-- Trade status: Go uses the strings "open" and "closed". -/
inductive TradeStatus
  | opened
  | closed
  deriving DecidableEq, Inhabited

/-- A trade (internal/types/types.go `Trade`).  Go's string ID "T%d" is
modelled by the numeric counter value. -/
structure Trade where
  id : ℕ
  entryDate : ℕ
  exitDate : Option ℕ
  entryPrice : ℚ
  exitPrice : Option ℚ
  quantity : ℤ
  profitLoss : ℚ
  status : TradeStatus
  stopLoss : ℚ
  takeProfit : ℚ
  deriving DecidableEq, Inhabited

/-- Strategy configuration (internal/types/types.go `StrategyConfig`). -/
structure StrategyConfig where
  buyThreshold : ℚ
  sellThreshold : ℚ
  stopLoss : ℚ
  takeProfit : ℚ
  rsiPeriod : ℕ
  bbPeriod : ℕ
  bbStdDev : ℚ
  deriving DecidableEq, Inhabited

/-- Risk management configuration (internal/types/types.go
`RiskManagementConfig`); `maxDrawdown` is never read by the core. -/
structure RiskManagementConfig where
  positionSize : ℚ
  deriving DecidableEq, Inhabited

/-- Backtest configuration (internal/types/types.go `BacktestConfig`);
the date-range and file-path fields belong to the excluded I/O glue. -/
structure BacktestConfig where
  strategyConfig : StrategyConfig
  riskManagementConfig : RiskManagementConfig
  initialCapital : ℚ
  tradeFee : ℚ
  slippage : ℚ
  deriving DecidableEq, Inhabited

/-! ## Indicator library -/

/-- Sum of a list of rationals by a left fold, as the Go accumulation loops do. -/
def listSum (l : List ℚ) : ℚ := l.foldl (· + ·) 0

/-- Gain/loss pair of one price change (pkg/indicators rsi.go):
`change > 0` contributes `(change, 0)`, otherwise `(0, -change)`. -/
def gainLoss (prev c : ℚ) : ℚ × ℚ :=
  if c - prev > 0 then (c - prev, 0) else (0, -(c - prev))

/-- Gain/loss pairs for the tail of a close series, given the previous close. -/
def changesFrom (prev : ℚ) : List ℚ → List (ℚ × ℚ)
  | [] => []
  | c :: cs => gainLoss prev c :: changesFrom c cs

/-- Index-aligned gain/loss pairs of a close series; index 0 carries `(0,0)`
exactly as the Go arrays `gains`/`losses` leave index 0 at the zero value. -/
def changes : List ℚ → List (ℚ × ℚ)
  | [] => []
  | c :: cs => (0, 0) :: changesFrom c cs

/-- Componentwise sum of gain/loss pairs. -/
def pairSum (l : List (ℚ × ℚ)) : ℚ × ℚ :=
  l.foldl (fun a b => (a.1 + b.1, a.2 + b.2)) (0, 0)

/-- RSI value from an (avgGain, avgLoss) pair: 100 when the average loss is 0,
else `100 - 100/(1 + avgGain/avgLoss)`. -/
def rsiOf (avg : ℚ × ℚ) : ℚ :=
  if avg.2 = 0 then 100 else 100 - 100 / (1 + avg.1 / avg.2)

/-- One step of Wilder smoothing: `avg = (avg*(period-1) + current)/period`. -/
def wilderStep (period : ℕ) (avg gl : ℚ × ℚ) : ℚ × ℚ :=
  ((avg.1 * ((period : ℚ) - 1) + gl.1) / (period : ℚ),
   (avg.2 * ((period : ℚ) - 1) + gl.2) / (period : ℚ))

/-- RSI values for indices above `period`, carrying the smoothed averages. -/
def rsiTail (period : ℕ) (avg : ℚ × ℚ) : List (ℚ × ℚ) → List ℚ
  | [] => []
  | gl :: rest =>
      let avg2 := wilderStep period avg gl
      rsiOf avg2 :: rsiTail period avg2 rest

/-- Go `CalculateRSI` (pkg/indicators rsi.go).  If the series is shorter than
`period+1`, returns all zeros of the input length; otherwise indices below
`period` are zero, index `period` uses the simple average of the first
`period` gains/losses, and later indices use Wilder smoothing. -/
def CalculateRSI (data : List StockData) (period : ℕ) : List ℚ :=
  if data.length < period + 1 then List.replicate data.length 0
  else
    let gl := changes (data.map (·.close))
    let s := pairSum ((gl.take (period + 1)).drop 1)
    let avg0 : ℚ × ℚ := (s.1 / (period : ℚ), s.2 / (period : ℚ))
    List.replicate period 0 ++ rsiOf avg0 :: rsiTail period avg0 (gl.drop (period + 1))

/-- The Bollinger entry at index `i` (pkg/indicators/bollinger_bands.go).
The Go loop over `j < period` reads `data[i-j].Close`, i.e. the window
`[i-period+1, i]`; the Go guard `i >= period-1` on ints is `period ≤ i+1`
on naturals.  The Go sums run over the same window in descending index
order; addition over ℚ is commutative so the fold direction is immaterial. -/
def bbAt (sq : ℚ → ℚ) (data : List StockData) (period : ℕ) (k : ℚ) (i : ℕ) :
    BollingerBands :=
  if period ≤ i + 1 then
    let w := ((data.map (·.close)).drop (i + 1 - period)).take period
    let sum := listSum w
    let sqSum := listSum (w.map (fun c => c ^ 2))
    let mean := sum / (period : ℚ)
    let variance := sqSum / (period : ℚ) - mean ^ 2
    let stdDev := sq variance
    { upper := mean + k * stdDev, middle := mean, lower := mean - k * stdDev }
  else { upper := 0, middle := 0, lower := 0 }

/-- Go `CalculateBollingerBands` (pkg/indicators/bollinger_bands.go): one entry
appended per input index. -/
def CalculateBollingerBands (sq : ℚ → ℚ) (data : List StockData) (period : ℕ)
    (k : ℚ) : List BollingerBands :=
  (List.range data.length).map (bbAt sq data period k)

/-! ## Strategy evaluator (pkg/strategy/bb_rsi_strategy.go) -/

/-- Go `evaluatePosition`: strict priority chain.  BUY iff the close is below the
lower band and RSI is below the buy threshold; else SELL iff RSI is above the
sell threshold; else HOLD. -/
def evaluatePosition (cfg : StrategyConfig) (stockData : StockData)
    (bb : BollingerBands) (rsi : ℚ) : Signal :=
  if stockData.close < bb.lower ∧ rsi < cfg.buyThreshold then
    { date := stockData.date, type := SignalType.BUY, price := stockData.close,
      reason := "Price below lower BB and RSI oversold" }
  else if rsi > cfg.sellThreshold then
    { date := stockData.date, type := SignalType.SELL, price := stockData.close,
      reason := "RSI overbought" }
  else
    { date := stockData.date, type := SignalType.HOLD, price := stockData.close,
      reason := "" }

/-- The signal-emission loop of `GenerateSignals`: for `i` from the start
index up to `len(data)`, evaluate the bar and append the signal when it is
not HOLD. -/
def sigLoop (cfg : StrategyConfig) (data : List StockData)
    (bands : List BollingerBands) (rsis : List ℚ) (i : ℕ) : List Signal :=
  if h : i < data.length then
    let s := evaluatePosition cfg (data.getD i default) (bands.getD i default)
      (rsis.getD i 0)
    if s.type = SignalType.HOLD then sigLoop cfg data bands rsis (i + 1)
    else s :: sigLoop cfg data bands rsis (i + 1)
  else []
termination_by data.length - i
decreasing_by omega

/-- Go `GenerateSignals`: empty when the series is shorter than either period;
otherwise both indicator series are computed once and the bars from
`max(BBPeriod, RSIPeriod)` onward are evaluated in order. -/
def GenerateSignals (sq : ℚ → ℚ) (cfg : StrategyConfig)
    (data : List StockData) : List Signal :=
  if data.length < cfg.bbPeriod ∨ data.length < cfg.rsiPeriod then []
  else
    let bollingerBands := CalculateBollingerBands sq data cfg.bbPeriod cfg.bbStdDev
    let rsiValues := CalculateRSI data cfg.rsiPeriod
    let startIndex := if cfg.rsiPeriod > cfg.bbPeriod then cfg.rsiPeriod else cfg.bbPeriod
    sigLoop cfg data bollingerBands rsiValues startIndex

/-- Go's `int64(x)` conversion of a float truncates toward zero. -/
def goTrunc (q : ℚ) : ℤ := if 0 ≤ q then ⌊q⌋ else ⌈q⌉

/-- Go `CalculatePositionSize`: risk-based sizing with a capital clamp.
`riskPerShare` is written exactly as in the source
(`currentPrice - currentPrice*(1 - stopLoss)`). -/
def CalculatePositionSize (cfg : StrategyConfig)
    (availableCapital currentPrice : ℚ) (riskConfig : RiskManagementConfig) : ℤ :=
  let riskAmount := availableCapital * riskConfig.positionSize
  let stopLossPrice := currentPrice * (1 - cfg.stopLoss)
  let riskPerShare := currentPrice - stopLossPrice
  if riskPerShare ≤ 0 then 0
  else
    let shares := goTrunc (riskAmount / riskPerShare)
    let totalCost := (shares : ℚ) * currentPrice
    if totalCost > availableCapital then goTrunc (availableCapital / currentPrice)
    else shares

/-- Go `GetStopLossPrice`: `entry * (1 - stopLossPct)`. -/
def GetStopLossPrice (cfg : StrategyConfig) (entryPrice : ℚ) : ℚ :=
  entryPrice * (1 - cfg.stopLoss)

/-- Go `GetTakeProfitPrice`: `entry * (1 + takeProfitPct)`. -/
def GetTakeProfitPrice (cfg : StrategyConfig) (entryPrice : ℚ) : ℚ :=
  entryPrice * (1 + cfg.takeProfit)

/-! ## Execution engine (pkg/backtesting/engine.go) -/

/-- The engine's mutable state inside `executeTrades`: the completed-trade
list, the open-trade slice, the available capital and the trade counter. -/
structure EngineState where
  trades : List Trade
  openTrades : List Trade
  availableCapital : ℚ
  tradeID : ℕ
  deriving DecidableEq, Inhabited

/-- The exit formula shared verbatim by the SELL branch, both stop/target
branches and the end-of-series close: exit at `price*(1-slippage)`, fee
`quantity*exitPrice*tradeFee`, proceeds `quantity*exitPrice - fee`.
Returns the closed trade and the proceeds. -/
def closeTradeAt (cfg : BacktestConfig) (t : Trade) (price : ℚ) (date : ℕ) :
    Trade × ℚ :=
  let exitPrice := price * (1 - cfg.slippage)
  let tradeFee := (t.quantity : ℚ) * exitPrice * cfg.tradeFee
  let proceeds := (t.quantity : ℚ) * exitPrice - tradeFee
  ({ t with
      exitDate := some date
      exitPrice := some exitPrice
      status := TradeStatus.closed
      profitLoss := proceeds - (t.quantity : ℚ) * t.entryPrice }, proceeds)

/-- Go `checkStopLossAndTakeProfit`: walks the open trades; a trade whose stop
(checked first) or target is breached by the signal's price is closed at that
signal and appended to the completed list with its proceeds credited; the
rest are kept in order.  Returns (remaining, completed, capital). -/
def checkStopLossAndTakeProfit (cfg : BacktestConfig) (openTrades : List Trade)
    (signal : Signal) (trades : List Trade) (availableCapital : ℚ) :
    List Trade × List Trade × ℚ :=
  match openTrades with
  | [] => ([], trades, availableCapital)
  | t :: rest =>
      if signal.price ≤ t.stopLoss then
        let c := closeTradeAt cfg t signal.price signal.date
        checkStopLossAndTakeProfit cfg rest signal (trades ++ [c.1])
          (availableCapital + c.2)
      else if signal.price ≥ t.takeProfit then
        let c := closeTradeAt cfg t signal.price signal.date
        checkStopLossAndTakeProfit cfg rest signal (trades ++ [c.1])
          (availableCapital + c.2)
      else
        let r := checkStopLossAndTakeProfit cfg rest signal trades availableCapital
        (t :: r.1, r.2)

/-- One iteration of the `executeTrades` signal loop: the BUY/SELL switch
followed by the stop-loss/take-profit check against the same signal. -/
def processSignal (cfg : BacktestConfig) (st : EngineState) (signal : Signal) :
    EngineState :=
  let st1 : EngineState :=
    match signal.type with
    | SignalType.BUY =>
        if st.openTrades.length = 0 then
          let shares := CalculatePositionSize cfg.strategyConfig
            st.availableCapital signal.price cfg.riskManagementConfig
          if shares > 0 then
            let entryPrice := signal.price * (1 + cfg.slippage)
            let tradeFee := (shares : ℚ) * entryPrice * cfg.tradeFee
            let totalCost := (shares : ℚ) * entryPrice + tradeFee
            if totalCost ≤ st.availableCapital then
              let trade : Trade :=
                { id := st.tradeID
                  entryDate := signal.date
                  exitDate := none
                  entryPrice := entryPrice
                  exitPrice := none
                  quantity := shares
                  profitLoss := 0
                  status := TradeStatus.opened
                  stopLoss := GetStopLossPrice cfg.strategyConfig entryPrice
                  takeProfit := GetTakeProfitPrice cfg.strategyConfig entryPrice }
              { st with
                  openTrades := st.openTrades ++ [trade]
                  availableCapital := st.availableCapital - totalCost
                  tradeID := st.tradeID + 1 }
            else st
          else st
        else st
    | SignalType.SELL =>
        let r := st.openTrades.foldl
          (fun (acc : List Trade × ℚ) t =>
            let c := closeTradeAt cfg t signal.price signal.date
            (acc.1 ++ [c.1], acc.2 + c.2))
          (st.trades, st.availableCapital)
        { st with trades := r.1, openTrades := [], availableCapital := r.2 }
    | SignalType.HOLD => st
  let r := checkStopLossAndTakeProfit cfg st1.openTrades signal st1.trades
    st1.availableCapital
  { st1 with openTrades := r.1, trades := r.2.1, availableCapital := r.2.2 }

/-- The initial engine state of a run. -/
def initState (cfg : BacktestConfig) : EngineState :=
  { trades := [], openTrades := [], availableCapital := cfg.initialCapital,
    tradeID := 1 }

/-- Go `executeTrades`: folds the signal loop over the signals, then force-closes
any remaining open trades at the last bar's close price and date.  (The Go
function also builds a date-indexed map of the data that it never reads, and
its error return is always nil; both are dropped.)  The end-of-series close
does not credit the proceeds to `availableCapital` in the source. -/
def executeTrades (cfg : BacktestConfig) (signals : List Signal)
    (data : List StockData) : List Trade :=
  let final := signals.foldl (processSignal cfg) (initState cfg)
  if final.openTrades.length > 0 ∧ data.length > 0 then
    let lastPrice := (data.getLastD default).close
    let lastDate := (data.getLastD default).date
    final.openTrades.foldl
      (fun acc t => acc ++ [(closeTradeAt cfg t lastPrice lastDate).1])
      final.trades
  else final.trades

/-! ## Results aggregator (pkg/backtesting/engine.go `calculateResults`) -/

/-- Backtest results (internal/types/types.go `BacktestResult`).  The derived
statistics not referenced by any verified property (win rate, averages,
returns, drawdown — the last needing real-number `Pow`) are omitted. -/
structure BacktestResult where
  trades : List Trade
  totalProfitLoss : ℚ
  totalTrades : ℕ
  winningTrades : ℕ
  losingTrades : ℕ
  startDate : ℕ
  endDate : ℕ
  initialCapital : ℚ
  finalCapital : ℚ
  deriving DecidableEq, Inhabited

/-- Go `calculateResults`: sums the completed trades' P&L exactly as the Go
accumulation loop does and reports `finalCapital = initialCapital + totalPL`. -/
def calculateResults (cfg : BacktestConfig) (trades : List Trade)
    (data : List StockData) : BacktestResult :=
  let totalPL := trades.foldl (fun acc t => acc + t.profitLoss) 0
  { trades := trades
    totalProfitLoss := totalPL
    totalTrades := trades.length
    winningTrades := (trades.filter (fun t => 0 < t.profitLoss)).length
    losingTrades := (trades.filter (fun t => t.profitLoss < 0)).length
    startDate := (data.headD default).date
    endDate := (data.getLastD default).date
    initialCapital := cfg.initialCapital
    finalCapital := cfg.initialCapital + totalPL }

/-- Go `Engine.Run`: rejects an empty series with an error, otherwise generates
signals, executes trades (whose error is always nil) and aggregates results. -/
def Run (sq : ℚ → ℚ) (cfg : BacktestConfig) (data : List StockData) :
    Except String BacktestResult :=
  if data.length = 0 then Except.error "no data provided for backtesting"
  else
    let signals := GenerateSignals sq cfg.strategyConfig data
    let trades := executeTrades cfg signals data
    Except.ok (calculateResults cfg trades data)

/-! ## Concrete inputs used by witnesses and counterexamples -/

/-- A placeholder square-root collaborator used by concrete witnesses whose
conclusion does not depend on the choice of `sq`. -/
def sqZero : ℚ → ℚ := fun _ => 0

/-- The five-bar close series of the Bollinger end-to-end scenario. -/
def data5 : List StockData := [⟨1, 100⟩, ⟨2, 102⟩, ⟨3, 101⟩, ⟨4, 103⟩, ⟨5, 105⟩]

/-- Fifteen strictly increasing closes, the RSI warm-up scenario. -/
def incData15 : List StockData :=
  [⟨1, 1⟩, ⟨2, 2⟩, ⟨3, 3⟩, ⟨4, 4⟩, ⟨5, 5⟩, ⟨6, 6⟩, ⟨7, 7⟩, ⟨8, 8⟩,
   ⟨9, 9⟩, ⟨10, 10⟩, ⟨11, 11⟩, ⟨12, 12⟩, ⟨13, 13⟩, ⟨14, 14⟩, ⟨15, 15⟩]

/-! ## Helper lemmas -/

lemma foldl_add_eq (l : List ℚ) (a : ℚ) : l.foldl (· + ·) a = a + l.sum := by
  induction l generalizing a with
  | nil => simp
  | cons x xs ih => rw [List.foldl_cons, ih, List.sum_cons]; ring

lemma listSum_eq_sum (l : List ℚ) : listSum l = l.sum := by
  rw [listSum, foldl_add_eq, zero_add]

lemma foldl_profitLoss (l : List Trade) (a : ℚ) :
    l.foldl (fun acc t => acc + t.profitLoss) a = a + (l.map Trade.profitLoss).sum := by
  induction l generalizing a with
  | nil => simp
  | cons x xs ih => rw [List.foldl_cons, ih, List.map_cons, List.sum_cons]; ring

lemma changesFrom_length (prev : ℚ) (l : List ℚ) :
    (changesFrom prev l).length = l.length := by
  induction l generalizing prev with
  | nil => rfl
  | cons c cs ih => simp [changesFrom, ih]

lemma changes_length (l : List ℚ) : (changes l).length = l.length := by
  cases l with
  | nil => rfl
  | cons c cs => simp [changes, changesFrom_length]

lemma rsiTail_length (p : ℕ) (avg : ℚ × ℚ) (l : List (ℚ × ℚ)) :
    (rsiTail p avg l).length = l.length := by
  induction l generalizing avg with
  | nil => rfl
  | cons gl rest ih => simp [rsiTail, ih]

lemma getD_replicate_zero (n i : ℕ) : (List.replicate n (0 : ℚ)).getD i 0 = 0 := by
  rcases Nat.lt_or_ge i n with hi | hi
  · rw [List.getD_eq_getElem _ _ (by simpa using hi)]
    simp
  · exact List.getD_eq_default _ _ (by simpa using hi)

lemma calculateRSI_length (data : List StockData) (period : ℕ) :
    (CalculateRSI data period).length = data.length := by
  unfold CalculateRSI
  split
  · simp
  · rename_i h
    simp only [List.length_append, List.length_replicate, List.length_cons,
      rsiTail_length, List.length_drop, changes_length, List.length_map]
    omega

lemma calculateRSI_zero_before (data : List StockData) (period i : ℕ)
    (h : i < period) : (CalculateRSI data period).getD i 0 = 0 := by
  unfold CalculateRSI
  split
  · exact getD_replicate_zero _ _
  · rw [List.getD_append _ _ _ _ (by simpa using h)]
    exact getD_replicate_zero _ _

/-- Claim C8: `CalculateRSI` is length-preserving, the entries below `period`
are the zero sentinel, and for 15 strictly increasing closes with period 14
the last RSI equals 100 (the simple-average branch yields 100 when the
average loss is zero). -/
theorem calculateRSI_spec :
    (∀ (data : List StockData) (period : ℕ),
        (CalculateRSI data period).length = data.length)
    ∧ (∀ (data : List StockData) (period i : ℕ), i < period →
        (CalculateRSI data period).getD i 0 = 0)
    ∧ (CalculateRSI incData15 14).getD 14 0 = 100 :=
  ⟨calculateRSI_length, calculateRSI_zero_before, by decide⟩

/-- Witness for `calculateRSI_spec`: the sentinel part applied at index 3 of
the concrete 15-bar series. -/
theorem calculateRSI_spec_witness : (CalculateRSI incData15 14).getD 3 0 = 0 :=
  calculateRSI_spec.2.1 incData15 14 3 (by decide)

/-! ## Bollinger-band lemmas -/

/-- The trailing window `[i-period+1, i]` of closes read by the Go loop. -/
def window (data : List StockData) (period i : ℕ) : List ℚ :=
  ((data.map (·.close)).drop (i + 1 - period)).take period

/-- Arithmetic mean of the trailing window. -/
def winMean (data : List StockData) (period i : ℕ) : ℚ :=
  listSum (window data period i) / (period : ℚ)

/-- Population variance (divide by `period`) of the trailing window. -/
def popVar (data : List StockData) (period i : ℕ) : ℚ :=
  listSum ((window data period i).map
    (fun c => (c - winMean data period i) ^ 2)) / (period : ℚ)

lemma calculateBollingerBands_length (sq : ℚ → ℚ) (data : List StockData)
    (period : ℕ) (k : ℚ) :
    (CalculateBollingerBands sq data period k).length = data.length := by
  simp [CalculateBollingerBands]

lemma calculateBollingerBands_getD (sq : ℚ → ℚ) (data : List StockData)
    (period : ℕ) (k : ℚ) (i : ℕ) (h : i < data.length) :
    (CalculateBollingerBands sq data period k).getD i default =
      bbAt sq data period k i := by
  unfold CalculateBollingerBands
  rw [List.getD_eq_getElem _ _ (by simpa using h)]
  simp

lemma sq_dev_sum (w : List ℚ) (m : ℚ) :
    (w.map (fun c => (c - m) ^ 2)).sum =
      (w.map (fun c => c ^ 2)).sum - 2 * m * w.sum + w.length * m ^ 2 := by
  induction w with
  | nil => simp
  | cons c cs ih =>
      simp only [List.map_cons, List.sum_cons, ih, List.length_cons]
      push_cast
      ring

lemma window_length (data : List StockData) (period i : ℕ)
    (hpi : period ≤ i + 1) (hi : i < data.length) :
    (window data period i).length = period := by
  rw [window, List.length_take, List.length_drop, List.length_map]
  omega

lemma variance_eq_popVar (w : List ℚ) (p : ℕ) (hp : 1 ≤ p) (hw : w.length = p) :
    listSum (w.map fun c => c ^ 2) / (p : ℚ) - (listSum w / (p : ℚ)) ^ 2 =
      listSum (w.map fun c => (c - listSum w / (p : ℚ)) ^ 2) / (p : ℚ) := by
  have hp0 : (p : ℚ) ≠ 0 := Nat.cast_ne_zero.mpr (by omega)
  simp only [listSum_eq_sum]
  rw [sq_dev_sum, hw]
  field_simp
  ring

lemma bbAt_eq (sq : ℚ → ℚ) (data : List StockData) (period : ℕ) (k : ℚ) (i : ℕ)
    (hp : 1 ≤ period) (hpi : period ≤ i + 1) (hi : i < data.length) :
    bbAt sq data period k i =
      { upper := winMean data period i + k * sq (popVar data period i)
        middle := winMean data period i
        lower := winMean data period i - k * sq (popVar data period i) } := by
  have hv : popVar data period i =
      listSum ((window data period i).map fun c => c ^ 2) / (period : ℚ) -
        (listSum (window data period i) / (period : ℚ)) ^ 2 := by
    unfold popVar winMean
    exact (variance_eq_popVar _ _ hp (window_length _ _ _ hpi hi)).symm
  unfold bbAt
  rw [if_pos hpi]
  unfold winMean
  rw [hv]
  rfl

/-- Claim C9: `CalculateBollingerBands` emits one entry per input bar, the
entries before index `period-1` are the zero sentinel, every later entry has
middle equal to the trailing-window arithmetic mean and upper/lower offset by
`k` times the square root of the population variance, and the concrete
five-close scenario at index 2 has middle 101 and variance 2/3. -/
theorem calculateBollingerBands_spec :
    (∀ (sq : ℚ → ℚ) (data : List StockData) (period : ℕ) (k : ℚ),
        (CalculateBollingerBands sq data period k).length = data.length)
    ∧ (∀ (sq : ℚ → ℚ) (data : List StockData) (period : ℕ) (k : ℚ) (i : ℕ),
        i + 1 < period →
        (CalculateBollingerBands sq data period k).getD i default = ⟨0, 0, 0⟩)
    ∧ (∀ (sq : ℚ → ℚ) (data : List StockData) (period : ℕ) (k : ℚ) (i : ℕ),
        1 ≤ period → period ≤ i + 1 → i < data.length →
        (CalculateBollingerBands sq data period k).getD i default =
          ⟨winMean data period i + k * sq (popVar data period i),
           winMean data period i,
           winMean data period i - k * sq (popVar data period i)⟩)
    ∧ (∀ sq : ℚ → ℚ, (CalculateBollingerBands sq data5 3 2).getD 2 default =
        ⟨101 + 2 * sq (2/3), 101, 101 - 2 * sq (2/3)⟩) := by
  refine ⟨calculateBollingerBands_length, ?_, ?_, ?_⟩
  · intro sq data period k i h
    rcases Nat.lt_or_ge i data.length with hi | hi
    · rw [calculateBollingerBands_getD _ _ _ _ _ hi, bbAt]
      rw [if_neg (by omega)]
    · rw [List.getD_eq_default _ _ (by simpa [calculateBollingerBands_length] using hi)]
      rfl
  · intro sq data period k i hp hpi hi
    rw [calculateBollingerBands_getD _ _ _ _ _ hi, bbAt_eq _ _ _ _ _ hp hpi hi]
  · intro sq
    rw [calculateBollingerBands_getD _ _ _ _ _ (by decide),
      bbAt_eq _ _ _ _ _ (by decide) (by decide) (by decide)]
    have h1 : winMean data5 3 2 = 101 := by decide
    have h2 : popVar data5 3 2 = 2/3 := by decide
    rw [h1, h2]

/-- Witness for `calculateBollingerBands_spec`: the sentinel part applied at
index 0 of the concrete five-close series. -/
theorem calculateBollingerBands_spec_witness :
    (CalculateBollingerBands sqZero data5 3 2).getD 0 default = ⟨0, 0, 0⟩ :=
  calculateBollingerBands_spec.2.1 sqZero data5 3 2 0 (by decide)

/-! ## GenerateSignals lemmas -/

lemma sigLoop_eq (cfg : StrategyConfig) (data : List StockData)
    (bands : List BollingerBands) (rsis : List ℚ) :
    ∀ (n i : ℕ), data.length - i = n →
      sigLoop cfg data bands rsis i =
        (List.range' i n).filterMap (fun j =>
          let s := evaluatePosition cfg (data.getD j default) (bands.getD j default)
            (rsis.getD j 0)
          if s.type = SignalType.HOLD then none else some s) := by
  intro n
  induction n with
  | zero =>
      intro i hi
      rw [sigLoop, dif_neg (by omega)]
      simp
  | succ m ih =>
      intro i hi
      rw [sigLoop, dif_pos (by omega), List.range'_succ, List.filterMap_cons]
      have h2 := ih (i + 1) (by omega)
      by_cases hH : (evaluatePosition cfg (data.getD i default) (bands.getD i default)
          (rsis.getD i 0)).type = SignalType.HOLD
      · simp only [hH, if_pos, h2]
      · simp only [h2]
        rw [if_neg hH, if_neg hH]

/-- Claim C6: `GenerateSignals` is empty when the series is shorter than
`max(BBPeriod, RSIPeriod)`; otherwise it emits, in bar order, exactly the
non-HOLD evaluations of the bars from that start index on; and
`evaluatePosition` follows the strict BUY / SELL / HOLD priority chain at the
bar's own close and date. -/
theorem generateSignals_spec (sq : ℚ → ℚ) (cfg : StrategyConfig)
    (data : List StockData) :
    (data.length < max cfg.bbPeriod cfg.rsiPeriod → GenerateSignals sq cfg data = [])
    ∧ (max cfg.bbPeriod cfg.rsiPeriod ≤ data.length →
        GenerateSignals sq cfg data =
          (List.range' (max cfg.bbPeriod cfg.rsiPeriod)
              (data.length - max cfg.bbPeriod cfg.rsiPeriod)).filterMap (fun j =>
            let s := evaluatePosition cfg (data.getD j default)
              ((CalculateBollingerBands sq data cfg.bbPeriod cfg.bbStdDev).getD j default)
              ((CalculateRSI data cfg.rsiPeriod).getD j 0)
            if s.type = SignalType.HOLD then none else some s))
    ∧ (∀ (sd : StockData) (bb : BollingerBands) (rsi : ℚ),
        ((evaluatePosition cfg sd bb rsi).type = SignalType.BUY ↔
          sd.close < bb.lower ∧ rsi < cfg.buyThreshold)
        ∧ ((evaluatePosition cfg sd bb rsi).type = SignalType.SELL ↔
          ¬(sd.close < bb.lower ∧ rsi < cfg.buyThreshold) ∧ rsi > cfg.sellThreshold)
        ∧ (evaluatePosition cfg sd bb rsi).price = sd.close
        ∧ (evaluatePosition cfg sd bb rsi).date = sd.date) := by
  refine ⟨?_, ?_, ?_⟩
  · intro h
    rw [GenerateSignals, if_pos (lt_max_iff.mp h)]
  · intro h
    rw [GenerateSignals, if_neg (by rw [max_le_iff] at h; push_neg; omega)]
    have hstart : (if cfg.rsiPeriod > cfg.bbPeriod then cfg.rsiPeriod else cfg.bbPeriod) =
        max cfg.bbPeriod cfg.rsiPeriod := by
      rcases le_or_lt cfg.rsiPeriod cfg.bbPeriod with hle | hlt
      · rw [if_neg (by omega), max_eq_left hle]
      · rw [if_pos hlt, max_eq_right hlt.le]
    simp only [hstart]
    exact sigLoop_eq cfg data _ _ _ _ rfl
  · intro sd bb rsi
    unfold evaluatePosition
    by_cases h1 : sd.close < bb.lower ∧ rsi < cfg.buyThreshold
    · rw [if_pos h1]
      simp [h1]
    · rw [if_neg h1]
      by_cases h2 : rsi > cfg.sellThreshold
      · rw [if_pos h2]
        simp [h1, h2]
      · rw [if_neg h2]
        simp [h1, h2]

/-- Witness for `generateSignals_spec`: a two-bar series with periods (2, 3)
yields no signals. -/
theorem generateSignals_spec_witness :
    GenerateSignals sqZero ⟨30, 70, 1/20, 1/10, 3, 2, 2⟩ [⟨1, 100⟩, ⟨2, 101⟩] = [] :=
  (generateSignals_spec sqZero ⟨30, 70, 1/20, 1/10, 3, 2, 2⟩ [⟨1, 100⟩, ⟨2, 101⟩]).1
    (by decide)

/-! ## Engine invariants -/

lemma check_length_le (cfg : BacktestConfig) :
    ∀ (ot : List Trade) (s : Signal) (tr : List Trade) (cap : ℚ),
      ((checkStopLossAndTakeProfit cfg ot s tr cap).1).length ≤ ot.length := by
  intro ot
  induction ot with
  | nil =>
      intro s tr cap
      rw [checkStopLossAndTakeProfit]
  | cons t rest ih =>
      intro s tr cap
      rw [checkStopLossAndTakeProfit]
      by_cases h1 : s.price ≤ t.stopLoss
      · rw [if_pos h1]
        exact le_trans (ih _ _ _) (Nat.le_succ _)
      · rw [if_neg h1]
        by_cases h2 : s.price ≥ t.takeProfit
        · rw [if_pos h2]
          exact le_trans (ih _ _ _) (Nat.le_succ _)
        · rw [if_neg h2]
          simpa using ih s tr cap

lemma processSignal_open_le (cfg : BacktestConfig) (st : EngineState) (s : Signal)
    (h : st.openTrades.length ≤ 1) :
    ((processSignal cfg st s).openTrades).length ≤ 1 := by
  have key : ∀ st1 : EngineState, st1.openTrades.length ≤ 1 →
      ((checkStopLossAndTakeProfit cfg st1.openTrades s st1.trades
        st1.availableCapital).1).length ≤ 1 :=
    fun st1 h1 => le_trans (check_length_le cfg _ _ _ _) h1
  unfold processSignal
  cases hty : s.type <;> dsimp only
  · -- BUY
    apply key
    split_ifs with h0 hsh hcost
    · have hnil : st.openTrades = [] := List.length_eq_zero.mp h0
      simp [hnil]
    · exact h
    · exact h
    · exact h
  · -- SELL
    simp [checkStopLossAndTakeProfit]
  · -- HOLD
    exact key st h

lemma foldl_open_le (cfg : BacktestConfig) :
    ∀ (sigs : List Signal) (st : EngineState), st.openTrades.length ≤ 1 →
      ((sigs.foldl (processSignal cfg) st).openTrades).length ≤ 1 := by
  intro sigs
  induction sigs with
  | nil => intro st h; simpa using h
  | cons s rest ih => intro st h; exact ih _ (processSignal_open_le cfg st s h)

/-- Claim C2: for every signal sequence, the engine's state after processing
any prefix (the fold over an arbitrary signal list from the initial state)
has at most one open position: a BUY is only honored when the open slot is
empty and every close empties it. -/
theorem engine_single_position (cfg : BacktestConfig) (signals : List Signal) :
    ((signals.foldl (processSignal cfg) (initState cfg)).openTrades).length ≤ 1 :=
  foldl_open_le cfg signals (initState cfg) (by simp [initState])

/-! ## Position sizing (claim C7) -/

/-- The strategy configuration of the counterexamples and witnesses:
stop-loss 5%, take-profit 10%, RSI(14), BB(20, 2). -/
def scfgN : StrategyConfig := ⟨30, 70, 1/20, 1/10, 14, 20, 2⟩

/-- Risk configuration of the counterexamples and witnesses: 2% sizing. -/
def riskN : RiskManagementConfig := ⟨1/50⟩

/-- Claim C7 counterexample: at capital −10 and price 3 the function returns
−3 shares, `shares*price = −9 > −10 = capital`, and the result is not the
floor of `riskAmount/stopDistance` (which is −2): the Go `int64` conversion
truncates toward zero and the clamp overshoots for negative capital. -/
theorem calculatePositionSize_counterexample :
    CalculatePositionSize scfgN (-10) 3 riskN = -3
    ∧ ¬((CalculatePositionSize scfgN (-10) 3 riskN : ℚ) * 3 ≤ -10)
    ∧ CalculatePositionSize scfgN (-10) 3 riskN ≠
        ⌊((-10 : ℚ) * riskN.positionSize) / (3 * scfgN.stopLoss)⌋ := by
  refine ⟨by decide, by decide, by decide⟩

lemma goTrunc_nonneg {q : ℚ} (h : 0 ≤ q) : goTrunc q = ⌊q⌋ := if_pos h

/-- Claim C7 amended: for nonnegative capital, positive price and nonnegative
position-size fraction, `CalculatePositionSize` returns 0 when the stop
distance `price*stopLossPct` is nonpositive, otherwise returns
`floor(riskAmount/stopDistance)` clamped to `floor(capital/price)` when the
floor's cost exceeds the capital, and the result always satisfies
`shares*price ≤ capital`. -/
theorem calculatePositionSize_spec (cfg : StrategyConfig)
    (riskConfig : RiskManagementConfig) (capital price : ℚ)
    (hcap : 0 ≤ capital) (hprice : 0 < price)
    (hpos : 0 ≤ riskConfig.positionSize) :
    (price * cfg.stopLoss ≤ 0 →
      CalculatePositionSize cfg capital price riskConfig = 0)
    ∧ (0 < price * cfg.stopLoss →
        CalculatePositionSize cfg capital price riskConfig =
          if capital <
              (⌊(capital * riskConfig.positionSize) / (price * cfg.stopLoss)⌋ : ℚ) * price
          then ⌊capital / price⌋
          else ⌊(capital * riskConfig.positionSize) / (price * cfg.stopLoss)⌋)
    ∧ (CalculatePositionSize cfg capital price riskConfig : ℚ) * price ≤ capital := by
  have hrps : price - price * (1 - cfg.stopLoss) = price * cfg.stopLoss := by ring
  have heq : ∀ h3 : 0 < price * cfg.stopLoss,
      CalculatePositionSize cfg capital price riskConfig =
        if capital <
            (⌊(capital * riskConfig.positionSize) / (price * cfg.stopLoss)⌋ : ℚ) * price
        then ⌊capital / price⌋
        else ⌊(capital * riskConfig.positionSize) / (price * cfg.stopLoss)⌋ := by
    intro h3
    unfold CalculatePositionSize
    dsimp only
    rw [hrps, if_neg (not_le.mpr h3)]
    have hratio : 0 ≤ (capital * riskConfig.positionSize) / (price * cfg.stopLoss) :=
      div_nonneg (mul_nonneg hcap hpos) h3.le
    rw [goTrunc_nonneg hratio, goTrunc_nonneg (div_nonneg hcap hprice.le)]
  refine ⟨?_, heq, ?_⟩
  · intro h1
    unfold CalculatePositionSize
    dsimp only
    rw [hrps, if_pos h1]
  · rcases le_or_lt (price * cfg.stopLoss) 0 with h1 | h1
    · have h0 : CalculatePositionSize cfg capital price riskConfig = 0 := by
        unfold CalculatePositionSize
        dsimp only
        rw [hrps, if_pos h1]
      rw [h0]
      simpa using hcap
    · rw [heq h1]
      split_ifs with hlt
      · have hfl : (⌊capital / price⌋ : ℚ) ≤ capital / price := Int.floor_le _
        calc (⌊capital / price⌋ : ℚ) * price ≤ (capital / price) * price :=
              mul_le_mul_of_nonneg_right hfl hprice.le
          _ = capital := div_mul_cancel₀ capital hprice.ne'
      · exact not_lt.mp hlt

/-- Witness for `calculatePositionSize_spec`: at capital 1000 and price 10
the returned share count costs at most the capital. -/
theorem calculatePositionSize_spec_witness :
    (CalculatePositionSize scfgN 1000 10 riskN : ℚ) * 10 ≤ 1000 :=
  (calculatePositionSize_spec scfgN riskN 1000 10 (by norm_num) (by norm_num)
    (by norm_num [riskN])).2.2

/-! ## Run-level results (claims C3 and C4) -/

/-- Claim C3: whenever a run completes with a result, the reported final
capital equals the initial capital plus the sum of the completed trades'
profit/loss, and the reported total profit/loss equals that same sum. -/
theorem run_capital_identity (sq : ℚ → ℚ) (cfg : BacktestConfig)
    (data : List StockData) (r : BacktestResult)
    (h : Run sq cfg data = Except.ok r) :
    r.finalCapital = r.initialCapital + (r.trades.map Trade.profitLoss).sum
    ∧ r.totalProfitLoss = (r.trades.map Trade.profitLoss).sum := by
  unfold Run at h
  split at h
  · exact absurd h (by simp)
  · have hr : r = calculateResults cfg
        (executeTrades cfg (GenerateSignals sq cfg.strategyConfig data) data) data :=
      (Except.ok.inj h).symm
    subst hr
    unfold calculateResults
    constructor
    · dsimp only
      rw [foldl_profitLoss, zero_add]
    · dsimp only
      rw [foldl_profitLoss, zero_add]

/-- Backtest configuration of the tiny witness run: both periods 1, so a
single-bar series passes validation and produces no signals. -/
def cfgR : BacktestConfig := ⟨⟨30, 70, 1/20, 1/10, 1, 1, 2⟩, ⟨1/50⟩, 1000, 0, 0⟩

/-- One-bar data of the witness run. -/
def dataR : List StockData := [⟨1, 100⟩]

/-- Witness for `run_capital_identity`: the concrete one-bar run completes
and its reported final capital satisfies the identity. -/
theorem run_capital_identity_witness :
    ∃ r : BacktestResult, Run sqZero cfgR dataR = Except.ok r
      ∧ r.finalCapital = r.initialCapital + (r.trades.map Trade.profitLoss).sum := by
  refine ⟨calculateResults cfgR
    (executeTrades cfgR (GenerateSignals sqZero cfgR.strategyConfig dataR) dataR) dataR,
    rfl, ?_⟩
  exact (run_capital_identity sqZero cfgR dataR _ rfl).1

/-- Claim C4: `Run` fails (with the configuration error) exactly on the empty
price series, and every non-empty input completes with a full result — the
execute step is total, so zero-share sizing, insufficient capital and
buy-while-open conditions are absorbed rather than surfaced. -/
theorem run_error_iff (sq : ℚ → ℚ) (cfg : BacktestConfig) (data : List StockData) :
    (data = [] → Run sq cfg data = Except.error "no data provided for backtesting")
    ∧ (data ≠ [] → Run sq cfg data =
        Except.ok (calculateResults cfg
          (executeTrades cfg (GenerateSignals sq cfg.strategyConfig data) data) data)) := by
  constructor
  · intro h
    subst h
    rfl
  · intro h
    unfold Run
    rw [if_neg (by simpa [List.length_eq_zero] using h)]

/-- Witness for `run_error_iff`: the empty series errors; the one-bar series
returns a result. -/
theorem run_error_iff_witness :
    Run sqZero cfgR [] = Except.error "no data provided for backtesting"
    ∧ Run sqZero cfgR dataR =
        Except.ok (calculateResults cfgR
          (executeTrades cfgR (GenerateSignals sqZero cfgR.strategyConfig dataR) dataR)
          dataR) :=
  ⟨(run_error_iff sqZero cfgR []).1 rfl,
   (run_error_iff sqZero cfgR dataR).2 (by simp [dataR])⟩

/-! ## Stop-loss/take-profit monitoring (claims C1, C5, C10) -/

lemma check_remaining_safe (cfg : BacktestConfig) :
    ∀ (ot : List Trade) (s : Signal) (tr : List Trade) (cap : ℚ) (t : Trade),
      t ∈ (checkStopLossAndTakeProfit cfg ot s tr cap).1 →
      ¬(s.price ≤ t.stopLoss) ∧ ¬(s.price ≥ t.takeProfit) := by
  intro ot
  induction ot with
  | nil =>
      intro s tr cap t ht
      rw [checkStopLossAndTakeProfit] at ht
      simp at ht
  | cons u rest ih =>
      intro s tr cap t ht
      rw [checkStopLossAndTakeProfit] at ht
      by_cases h1 : s.price ≤ u.stopLoss
      · rw [if_pos h1] at ht
        exact ih _ _ _ _ ht
      · rw [if_neg h1] at ht
        by_cases h2 : s.price ≥ u.takeProfit
        · rw [if_pos h2] at ht
          exact ih _ _ _ _ ht
        · rw [if_neg h2] at ht
          dsimp only at ht
          rcases List.mem_cons.mp ht with rfl | h3
          · exact ⟨h1, h2⟩
          · exact ih _ _ _ _ h3

lemma check_trades_mono (cfg : BacktestConfig) :
    ∀ (ot : List Trade) (s : Signal) (tr : List Trade) (cap : ℚ) (x : Trade),
      x ∈ tr → x ∈ (checkStopLossAndTakeProfit cfg ot s tr cap).2.1 := by
  intro ot
  induction ot with
  | nil =>
      intro s tr cap x hx
      rw [checkStopLossAndTakeProfit]
      exact hx
  | cons u rest ih =>
      intro s tr cap x hx
      rw [checkStopLossAndTakeProfit]
      by_cases h1 : s.price ≤ u.stopLoss
      · rw [if_pos h1]
        exact ih _ _ _ _ (List.mem_append_left _ hx)
      · rw [if_neg h1]
        by_cases h2 : s.price ≥ u.takeProfit
        · rw [if_pos h2]
          exact ih _ _ _ _ (List.mem_append_left _ hx)
        · rw [if_neg h2]
          exact ih _ _ _ _ hx

lemma check_closes_breached (cfg : BacktestConfig) :
    ∀ (ot : List Trade) (s : Signal) (tr : List Trade) (cap : ℚ) (t : Trade),
      t ∈ ot → (s.price ≤ t.stopLoss ∨ s.price ≥ t.takeProfit) →
      (closeTradeAt cfg t s.price s.date).1 ∈
        (checkStopLossAndTakeProfit cfg ot s tr cap).2.1 := by
  intro ot
  induction ot with
  | nil =>
      intro s tr cap t hmem
      simp at hmem
  | cons u rest ih =>
      intro s tr cap t hmem hbr
      rcases List.mem_cons.mp hmem with rfl | h3
      · rw [checkStopLossAndTakeProfit]
        by_cases h1 : s.price ≤ t.stopLoss
        · rw [if_pos h1]
          exact check_trades_mono cfg _ _ _ _ _ (by simp)
        · rcases hbr with hb | hb
          · exact absurd hb h1
          · rw [if_neg h1, if_pos hb]
            exact check_trades_mono cfg _ _ _ _ _ (by simp)
      · rw [checkStopLossAndTakeProfit]
        by_cases h1 : s.price ≤ u.stopLoss
        · rw [if_pos h1]
          exact ih _ _ _ _ h3 hbr
        · rw [if_neg h1]
          by_cases h2 : s.price ≥ u.takeProfit
          · rw [if_pos h2]
            exact ih _ _ _ _ h3 hbr
          · rw [if_neg h2]
            exact ih _ _ _ _ h3 hbr

/-- Backtest configuration of the concrete engine scenarios: no fees, no
slippage, 5% stop, 10% target, 2% sizing, capital 1000. -/
def cfgC : BacktestConfig := ⟨scfgN, riskN, 1000, 0, 0⟩

/-- A single BUY signal at the first bar. -/
def sigB : Signal := ⟨1, SignalType.BUY, 100, ""⟩

/-- Three bars: entry at 100, a breaching bar at 50, recovery at 200. -/
def dataC : List StockData := [⟨1, 100⟩, ⟨2, 50⟩, ⟨3, 200⟩]

/-- The one completed trade of the `dataC` run: entered at date 1, closed by
the end-of-series sweep at date 3, despite the stop being breached at date 2. -/
def tradeC1 : Trade :=
  ⟨1, 1, some 3, 100, some 200, 4, 400, TradeStatus.closed, 95, 110⟩

/-- Claim C1 counterexample: a bar (date 2, close 50) after entry breaches the
position's stop (95), yet the engine leaves the position open past that bar
and only closes it at the last bar (date 3): bars that emit no signal are
never checked, so monitoring is per-signal, not per-bar. -/
theorem stop_monitor_counterexample :
    executeTrades cfgC [sigB] dataC = [tradeC1]
    ∧ (dataC.getD 1 default).close ≤ tradeC1.stopLoss
    ∧ tradeC1.entryDate < (dataC.getD 1 default).date
    ∧ tradeC1.exitDate = some 3
    ∧ (dataC.getD 1 default).date ≠ 3 := by
  refine ⟨by decide, by decide, by decide, by decide, by decide⟩

/-- Claim C1 amended: the engine checks stop-loss/take-profit per *signal*
(not per bar): after processing any signal, every position still open
satisfies `price > stopLoss` and `price < takeProfit` at that signal, and
every open position breached at a signal is force-closed at that signal's
price and date with the SELL fee/slippage formula. -/
theorem stop_monitor_per_signal (cfg : BacktestConfig) :
    (∀ (st : EngineState) (s : Signal) (t : Trade),
        t ∈ (processSignal cfg st s).openTrades →
        ¬(s.price ≤ t.stopLoss) ∧ ¬(s.price ≥ t.takeProfit))
    ∧ (∀ (ot : List Trade) (s : Signal) (tr : List Trade) (cap : ℚ) (t : Trade),
        t ∈ ot → (s.price ≤ t.stopLoss ∨ s.price ≥ t.takeProfit) →
        (closeTradeAt cfg t s.price s.date).1 ∈
          (checkStopLossAndTakeProfit cfg ot s tr cap).2.1) := by
  refine ⟨?_, check_closes_breached cfg⟩
  intro st s t ht
  unfold processSignal at ht
  exact check_remaining_safe cfg _ _ _ _ _ ht

/-- An open position used by the per-signal scenarios: 10 shares at entry
100, stop 95, target 110. -/
def tOpen : Trade := ⟨1, 1, none, 100, none, 10, 0, TradeStatus.opened, 95, 110⟩

/-- Engine state holding `tOpen` with capital 500. -/
def stOpen : EngineState := ⟨[], [tOpen], 500, 2⟩

/-- A HOLD signal priced between the stop and the target. -/
def sigHold100 : Signal := ⟨9, SignalType.HOLD, 100, ""⟩

/-- Witness for `stop_monitor_per_signal`: the surviving position after the
concrete HOLD signal is strictly inside its stop/target band. -/
theorem stop_monitor_per_signal_witness :
    ¬(sigHold100.price ≤ tOpen.stopLoss) ∧ ¬(sigHold100.price ≥ tOpen.takeProfit) :=
  (stop_monitor_per_signal cfgC).1 stOpen sigHold100 tOpen (by decide)

/-- A BUY signal below the open position's stop. -/
def sigBuy90 : Signal := ⟨7, SignalType.BUY, 90, ""⟩

/-- Claim C5 counterexample: a BUY signal at price 90 arriving while the
position (stop 95) is open changes the available capital from 500 to 1400 —
the stop-loss check still runs against the ignored BUY signal's price. -/
theorem buy_while_open_counterexample :
    (processSignal cfgC stOpen sigBuy90).availableCapital ≠
      stOpen.availableCapital := by
  decide

lemma check_singleton (cfg : BacktestConfig) (t : Trade) (s : Signal)
    (tr : List Trade) (cap : ℚ) :
    (checkStopLossAndTakeProfit cfg [t] s tr cap).1 = [] ∨
    (checkStopLossAndTakeProfit cfg [t] s tr cap).1 = [t] := by
  rw [checkStopLossAndTakeProfit]
  by_cases h1 : s.price ≤ t.stopLoss
  · rw [if_pos h1]
    left
    rw [checkStopLossAndTakeProfit]
  · rw [if_neg h1]
    by_cases h2 : s.price ≥ t.takeProfit
    · rw [if_pos h2]
      left
      rw [checkStopLossAndTakeProfit]
    · rw [if_neg h2]
      right
      dsimp only
      rw [checkStopLossAndTakeProfit]

lemma check_singleton_noop (cfg : BacktestConfig) (t : Trade) (s : Signal)
    (tr : List Trade) (cap : ℚ) (h1 : ¬(s.price ≤ t.stopLoss))
    (h2 : ¬(s.price ≥ t.takeProfit)) :
    checkStopLossAndTakeProfit cfg [t] s tr cap = ([t], tr, cap) := by
  rw [checkStopLossAndTakeProfit, if_neg h1, if_neg h2]
  dsimp only
  rw [checkStopLossAndTakeProfit]

/-- Claim C5 amended: while a position is open, a BUY signal opens no second
position (the open slot afterwards is unchanged or emptied by the stop/target
check), and when the BUY signal's price breaches neither the stop nor the
target the whole engine state is unchanged; capital can change only through
that stop/take-profit close. -/
theorem buy_while_open_spec (cfg : BacktestConfig) (st : EngineState) (s : Signal)
    (t : Trade) (hopen : st.openTrades = [t]) (hbuy : s.type = SignalType.BUY) :
    ((processSignal cfg st s).openTrades = st.openTrades
      ∨ (processSignal cfg st s).openTrades = [])
    ∧ (¬(s.price ≤ t.stopLoss) → ¬(s.price ≥ t.takeProfit) →
        processSignal cfg st s = st) := by
  have hlen : ¬(st.openTrades.length = 0) := by
    rw [hopen]
    simp
  have hst1 : processSignal cfg st s =
      { st with
        trades := (checkStopLossAndTakeProfit cfg st.openTrades s st.trades
          st.availableCapital).2.1
        openTrades := (checkStopLossAndTakeProfit cfg st.openTrades s st.trades
          st.availableCapital).1
        availableCapital := (checkStopLossAndTakeProfit cfg st.openTrades s st.trades
          st.availableCapital).2.2 } := by
    unfold processSignal
    rw [hbuy]
    dsimp only
    rw [if_neg hlen]
  constructor
  · rw [hst1]
    dsimp only
    rw [hopen]
    rcases check_singleton cfg t s st.trades st.availableCapital with h | h
    · right
      exact h
    · left
      rw [h]
  · intro h1 h2
    rw [hst1, hopen, check_singleton_noop cfg t s _ _ h1 h2]
    dsimp only
    rw [← hopen]

/-- A BUY signal priced strictly inside the open position's stop/target band. -/
def sigBuy100 : Signal := ⟨8, SignalType.BUY, 100, ""⟩

/-- Witness for `buy_while_open_spec`: the concrete non-breaching BUY leaves
the state untouched. -/
theorem buy_while_open_spec_witness :
    processSignal cfgC stOpen sigBuy100 = stOpen :=
  (buy_while_open_spec cfgC stOpen sigBuy100 tOpen rfl rfl).2 (by decide) (by decide)

lemma check_singleton_stop (cfg : BacktestConfig) (t : Trade) (s : Signal)
    (tr : List Trade) (cap : ℚ) (h1 : s.price ≤ t.stopLoss) :
    checkStopLossAndTakeProfit cfg [t] s tr cap =
      ([], tr ++ [(closeTradeAt cfg t s.price s.date).1],
        cap + (closeTradeAt cfg t s.price s.date).2) := by
  rw [checkStopLossAndTakeProfit, if_pos h1]
  rw [checkStopLossAndTakeProfit]

/-- Claim C10: whenever `(1+slippage)*(1-stopLossPct) ≥ 1`, a BUY fill (flat
slot, positive sizing, affordable cost, nonnegative signal price) is
force-closed by the stop-loss check at the very same signal: the slot is
empty afterwards and the recorded trade has `exitDate = entryDate =` the
signal's date. -/
theorem buy_immediate_self_stop (cfg : BacktestConfig) (st : EngineState)
    (s : Signal) (hflat : st.openTrades = []) (hbuy : s.type = SignalType.BUY)
    (hp : 0 ≤ s.price)
    (hc : 1 ≤ (1 + cfg.slippage) * (1 - cfg.strategyConfig.stopLoss))
    (hshares : CalculatePositionSize cfg.strategyConfig st.availableCapital s.price
        cfg.riskManagementConfig > 0)
    (hcost : ((CalculatePositionSize cfg.strategyConfig st.availableCapital s.price
          cfg.riskManagementConfig : ℤ) : ℚ) * (s.price * (1 + cfg.slippage))
        + ((CalculatePositionSize cfg.strategyConfig st.availableCapital s.price
            cfg.riskManagementConfig : ℤ) : ℚ) * (s.price * (1 + cfg.slippage))
          * cfg.tradeFee
        ≤ st.availableCapital) :
    (processSignal cfg st s).openTrades = []
    ∧ ∃ t : Trade, (processSignal cfg st s).trades = st.trades ++ [t]
        ∧ t.entryDate = s.date ∧ t.exitDate = some s.date
        ∧ t.status = TradeStatus.closed := by
  have hlen : st.openTrades.length = 0 := by
    rw [hflat]
    rfl
  have htrig : s.price ≤ GetStopLossPrice cfg.strategyConfig
      (s.price * (1 + cfg.slippage)) := by
    unfold GetStopLossPrice
    calc s.price = s.price * 1 := (mul_one _).symm
      _ ≤ s.price * ((1 + cfg.slippage) * (1 - cfg.strategyConfig.stopLoss)) :=
          mul_le_mul_of_nonneg_left hc hp
      _ = s.price * (1 + cfg.slippage) * (1 - cfg.strategyConfig.stopLoss) := by
          ring
  have hcheck := check_singleton_stop cfg
    { id := st.tradeID
      entryDate := s.date
      exitDate := none
      entryPrice := s.price * (1 + cfg.slippage)
      exitPrice := none
      quantity := CalculatePositionSize cfg.strategyConfig st.availableCapital
        s.price cfg.riskManagementConfig
      profitLoss := 0
      status := TradeStatus.opened
      stopLoss := GetStopLossPrice cfg.strategyConfig (s.price * (1 + cfg.slippage))
      takeProfit := GetTakeProfitPrice cfg.strategyConfig
        (s.price * (1 + cfg.slippage)) }
    s st.trades
    (st.availableCapital -
      (((CalculatePositionSize cfg.strategyConfig st.availableCapital s.price
          cfg.riskManagementConfig : ℤ) : ℚ) * (s.price * (1 + cfg.slippage))
        + ((CalculatePositionSize cfg.strategyConfig st.availableCapital s.price
            cfg.riskManagementConfig : ℤ) : ℚ) * (s.price * (1 + cfg.slippage))
          * cfg.tradeFee))
    htrig
  unfold processSignal
  rw [hbuy]
  dsimp only
  rw [if_pos hlen, if_pos hshares, if_pos hcost, hflat, List.nil_append]
  rw [hcheck]
  exact ⟨rfl, _, rfl, rfl, rfl, rfl⟩

/-- Backtest configuration with slippage 10% and stop 5%, so that
`(1+slippage)*(1-stop) = 1.045 ≥ 1`. -/
def cfgB : BacktestConfig := ⟨⟨30, 70, 1/20, 1/10, 14, 20, 2⟩, ⟨1/50⟩, 1000, 0, 1/10⟩

/-- A BUY signal at price 10 for the immediate-self-stop scenario. -/
def sB10 : Signal := ⟨5, SignalType.BUY, 10, ""⟩

/-- Witness for `buy_immediate_self_stop`: the concrete BUY at price 10 under
`cfgB` opens and immediately closes a trade dated at the same signal. -/
theorem buy_immediate_self_stop_witness :
    (processSignal cfgB (initState cfgB) sB10).openTrades = []
    ∧ ∃ t : Trade, (processSignal cfgB (initState cfgB) sB10).trades =
        (initState cfgB).trades ++ [t]
        ∧ t.entryDate = sB10.date ∧ t.exitDate = some sB10.date
        ∧ t.status = TradeStatus.closed :=
  buy_immediate_self_stop cfgB (initState cfgB) sB10 rfl rfl (by decide)
    (by decide) (by decide) (by decide)

end SwingTrader
